import Mathlib

/-!
Verification development for the self-calibrating Morse pulse-train decoder
implemented in ProjectSource/CommandRetrieveService.c (module name
MorseElementsService).  The C module is shallowly embedded below: the
module-level variables (CurrentState, TimeOfLastRise, TimeOfLastFall,
FirstDelta, LengthOfDot) become a record, the private helper functions
TestCalibration, CharacterizePulse and CharacterizeSpace become Lean
functions, and RunMorseElementsSM becomes a step function on the record.
Machine integers: the timestamps and widths are uint16_t in the source, so
all stores reduce modulo 2^16 and widths are computed with wraparound
subtraction.  In the C arithmetic every operand is promoted to int before
multiplication and division, so quantities such as 100 * width never
overflow; the only undefined behaviour is division by zero, which the
embedding makes explicit by returning Option.none.
-/

namespace MorseDecode

/-- The state enumeration of the flat state machine (MorseElementsState_t in
the header).  InitMorseElements is the initial pseudo state. -/
inductive MorseElementsState_t where
  | InitMorseElements
  | CalWaitForRise
  | CalWaitForFall
  | EOC_WaitRise
  | EOC_WaitFall
  | DecodeWaitRise
  | DecodeWaitFall
deriving DecidableEq

/-- The event types the service receives or posts (subset of the framework
event enumeration that this module mentions). -/
inductive ESEventType where
  | ES_INIT
  | ES_RISING_EDGE
  | ES_FALLING_EDGE
  | ES_CALIBRATION_COMPLETE
  | ES_EOC_DETECTED
  | ES_EOW_DETECTED
  | ES_DB_BUTTON_DOWN
  | ES_NO_EVENT
deriving DecidableEq

/-- ES_Event_t: an event type together with its uint16 parameter (the
timestamp of the edge for rising and falling events). -/
structure ES_Event_t where
  EventType : ESEventType
  EventParam : Nat
deriving DecidableEq

/-- The module-level variables of CommandRetrieveService.c that the state
machine reads and writes.  The timestamps, FirstDelta and LengthOfDot are
uint16_t in the source; they are stored here as natural numbers that every
write keeps below 2^16. -/
structure DecoderState where
  CurrentState : MorseElementsState_t
  TimeOfLastRise : Nat
  TimeOfLastFall : Nat
  FirstDelta : Nat
  LengthOfDot : Nat
deriving DecidableEq

/-- The classification outcomes that the decoder makes observable (under the
CHAR_TEST build each one is printed; the spec treats them as the output
events ShortMark, LongMark, BadPulse, EndOfCharacter, EndOfWord, BadGap;
an intra-character gap produces no output at all). -/
inductive MorseOutput where
  | shortMark
  | longMark
  | badPulse
  | endOfCharacter
  | endOfWord
  | badGap
deriving DecidableEq

/-- Result of classifying a pulse width (CharacterizePulse). -/
inductive PulseClass where
  | shortMark
  | longMark
  | badPulse
deriving DecidableEq

/-- Result of classifying a space width (CharacterizeSpace). -/
inductive SpaceClass where
  | intraGap
  | endOfCharacter
  | endOfWord
  | badGap
deriving DecidableEq

/-- Wraparound subtraction of two uint16_t timestamps, as performed by the
expressions TimeOfLastFall - TimeOfLastRise and TimeOfLastRise -
TimeOfLastFall in the source: the int difference converted back to
uint16_t, which for a, b < 2^16 equals (b - a + 2^16) mod 2^16. -/
def sub16 (b a : Nat) : Nat :=
  (b + 65536 - a) % 65536

/-- TestCalibration (CommandRetrieveService.c lines 486-522), embedded as a
function of the values it reads: FirstDelta and the fresh pulse width
DeltaTime = TimeOfLastFall - TimeOfLastRise.  It returns the new value of
FirstDelta together with (some d) when it saves d into LengthOfDot and
posts ES_CALIBRATION_COMPLETE, or none for the write-free priming and
window-shift branches.  The C test `(100 * FirstDelta / SecondDelta) <=
33.33` compares an int against a double, which for an integer left side is
exactly `<= 33`; the division is performed inside both branch conditions
before the guard `SecondDelta != 0` is consulted, so a zero SecondDelta is
an unguarded division by zero (undefined behaviour), embedded as none. -/
def TestCalibration (FirstDelta DeltaTime : Nat) : Option (Nat × Option Nat) :=
  if FirstDelta = 0 then
    some (DeltaTime, none)
  else if DeltaTime = 0 then
    none
  else if 100 * FirstDelta / DeltaTime ≤ 33 ∧ FirstDelta ≠ 0 then
    some (FirstDelta, some FirstDelta)
  else if 300 ≤ 100 * FirstDelta / DeltaTime ∧ DeltaTime ≠ 0 then
    some (FirstDelta, some DeltaTime)
  else
    some (DeltaTime, none)

/-- CharacterizePulse (lines 546-592), as a function of the measured pulse
width and LengthOfDot.  A zero LengthOfDot would be a division by zero in
the C source, embedded as none. -/
def CharacterizePulse (LastPulseWidth LengthOfDot : Nat) : Option PulseClass :=
  if LengthOfDot = 0 then
    none
  else if 100 * LastPulseWidth / LengthOfDot ≤ 150 then
    some PulseClass.shortMark
  else if 250 ≤ 100 * LastPulseWidth / LengthOfDot then
    some PulseClass.longMark
  else
    some PulseClass.badPulse

/-- CharacterizeSpace (lines 615-670), as a function of the measured space
width and LengthOfDot. -/
def CharacterizeSpace (LastSpaceWidth LengthOfDot : Nat) : Option SpaceClass :=
  if LengthOfDot = 0 then
    none
  else if 100 * LastSpaceWidth / LengthOfDot ≤ 150 then
    some SpaceClass.intraGap
  else if 250 ≤ 100 * LastSpaceWidth / LengthOfDot ∧
          100 * LastSpaceWidth / LengthOfDot ≤ 350 then
    some SpaceClass.endOfCharacter
  else if 650 ≤ 100 * LastSpaceWidth / LengthOfDot then
    some SpaceClass.endOfWord
  else
    some SpaceClass.badGap

/-- Observable outputs of CharacterizePulse: each pulse class is reported
(a dot, a dash or an X under CHAR_TEST). -/
def pulseOutputs : PulseClass → List MorseOutput
  | PulseClass.shortMark => [MorseOutput.shortMark]
  | PulseClass.longMark => [MorseOutput.longMark]
  | PulseClass.badPulse => [MorseOutput.badPulse]

/-- Observable outputs of CharacterizeSpace: an intra-character gap prints
nothing, the other classes are reported. -/
def spaceOutputs : SpaceClass → List MorseOutput
  | SpaceClass.intraGap => []
  | SpaceClass.endOfCharacter => [MorseOutput.endOfCharacter]
  | SpaceClass.endOfWord => [MorseOutput.endOfWord]
  | SpaceClass.badGap => [MorseOutput.badGap]

/-- Events CharacterizeSpace posts back to the MorseElements service itself
(PostMorseElementsService in the EOC and EOW branches). -/
def spacePosts : SpaceClass → List ESEventType
  | SpaceClass.endOfCharacter => [ESEventType.ES_EOC_DETECTED]
  | SpaceClass.endOfWord => [ESEventType.ES_EOW_DETECTED]
  | _ => []

/-- The result of one call of RunMorseElementsSM: the new module state, the
classification outputs made observable during the call, the events posted
back to the service itself during the call, and the function return value. -/
structure StepResult where
  state : DecoderState
  outs : List MorseOutput
  posts : List ESEventType
  ret : ESEventType
deriving DecidableEq

/-- RunMorseElementsSM (lines 156-384): the nested switch over CurrentState
and the incoming event type.  Unlisted state and event combinations fall to
the default arms and change nothing.  Every path sets ReturnEvent to
ES_NO_EVENT.  Timestamps are stored through uint16_t, hence the reduction
modulo 65536 at each store; the helper functions are called after the
timestamp store, exactly as in the source. -/
def RunMorseElementsSM (s : DecoderState) (e : ES_Event_t) : Option StepResult :=
  match s.CurrentState, e.EventType with
  | MorseElementsState_t.InitMorseElements, ESEventType.ES_INIT =>
      some ⟨{ s with
                CurrentState := MorseElementsState_t.CalWaitForRise },
            [], [], ESEventType.ES_NO_EVENT⟩
  | MorseElementsState_t.CalWaitForRise, ESEventType.ES_RISING_EDGE =>
      some ⟨{ s with
                TimeOfLastRise := e.EventParam % 65536
                CurrentState := MorseElementsState_t.CalWaitForFall },
            [], [], ESEventType.ES_NO_EVENT⟩
  | MorseElementsState_t.CalWaitForRise, ESEventType.ES_CALIBRATION_COMPLETE =>
      some ⟨{ s with
                CurrentState := MorseElementsState_t.EOC_WaitRise },
            [], [], ESEventType.ES_NO_EVENT⟩
  | MorseElementsState_t.CalWaitForFall, ESEventType.ES_FALLING_EDGE =>
      match TestCalibration s.FirstDelta (sub16 (e.EventParam % 65536) s.TimeOfLastRise) with
      | none => none
      | some (fd, none) =>
          some ⟨{ s with
                    TimeOfLastFall := e.EventParam % 65536
                    FirstDelta := fd
                    CurrentState := MorseElementsState_t.CalWaitForRise },
                [], [], ESEventType.ES_NO_EVENT⟩
      | some (fd, some d) =>
          some ⟨{ s with
                    TimeOfLastFall := e.EventParam % 65536
                    FirstDelta := fd
                    LengthOfDot := d
                    CurrentState := MorseElementsState_t.CalWaitForRise },
                [], [ESEventType.ES_CALIBRATION_COMPLETE], ESEventType.ES_NO_EVENT⟩
  | MorseElementsState_t.EOC_WaitRise, ESEventType.ES_RISING_EDGE =>
      match CharacterizeSpace (sub16 (e.EventParam % 65536) s.TimeOfLastFall) s.LengthOfDot with
      | none => none
      | some c =>
          some ⟨{ s with
                    TimeOfLastRise := e.EventParam % 65536
                    CurrentState := MorseElementsState_t.EOC_WaitFall },
                spaceOutputs c, spacePosts c, ESEventType.ES_NO_EVENT⟩
  | MorseElementsState_t.EOC_WaitRise, ESEventType.ES_DB_BUTTON_DOWN =>
      some ⟨{ s with
                CurrentState := MorseElementsState_t.CalWaitForRise
                FirstDelta := 0 },
            [], [], ESEventType.ES_NO_EVENT⟩
  | MorseElementsState_t.EOC_WaitFall, ESEventType.ES_FALLING_EDGE =>
      some ⟨{ s with
                TimeOfLastFall := e.EventParam % 65536
                CurrentState := MorseElementsState_t.EOC_WaitRise },
            [], [], ESEventType.ES_NO_EVENT⟩
  | MorseElementsState_t.EOC_WaitFall, ESEventType.ES_DB_BUTTON_DOWN =>
      some ⟨{ s with
                CurrentState := MorseElementsState_t.CalWaitForRise
                FirstDelta := 0 },
            [], [], ESEventType.ES_NO_EVENT⟩
  | MorseElementsState_t.EOC_WaitFall, ESEventType.ES_EOC_DETECTED =>
      some ⟨{ s with
                CurrentState := MorseElementsState_t.DecodeWaitFall },
            [], [], ESEventType.ES_NO_EVENT⟩
  | MorseElementsState_t.DecodeWaitRise, ESEventType.ES_RISING_EDGE =>
      match CharacterizeSpace (sub16 (e.EventParam % 65536) s.TimeOfLastFall) s.LengthOfDot with
      | none => none
      | some c =>
          some ⟨{ s with
                    TimeOfLastRise := e.EventParam % 65536
                    CurrentState := MorseElementsState_t.DecodeWaitFall },
                spaceOutputs c, spacePosts c, ESEventType.ES_NO_EVENT⟩
  | MorseElementsState_t.DecodeWaitRise, ESEventType.ES_DB_BUTTON_DOWN =>
      some ⟨{ s with
                CurrentState := MorseElementsState_t.CalWaitForRise
                FirstDelta := 0 },
            [], [], ESEventType.ES_NO_EVENT⟩
  | MorseElementsState_t.DecodeWaitFall, ESEventType.ES_FALLING_EDGE =>
      match CharacterizePulse (sub16 (e.EventParam % 65536) s.TimeOfLastRise) s.LengthOfDot with
      | none => none
      | some c =>
          some ⟨{ s with
                    TimeOfLastFall := e.EventParam % 65536
                    CurrentState := MorseElementsState_t.DecodeWaitRise },
                pulseOutputs c, [], ESEventType.ES_NO_EVENT⟩
  | MorseElementsState_t.DecodeWaitFall, ESEventType.ES_DB_BUTTON_DOWN =>
      some ⟨{ s with
                CurrentState := MorseElementsState_t.CalWaitForRise
                FirstDelta := 0 },
            [], [], ESEventType.ES_NO_EVENT⟩
  | _, _ => some ⟨s, [], [], ESEventType.ES_NO_EVENT⟩

/-- A self-posted event: the C code sets only the EventType field of the
local ES_Event_t before posting, and the handlers of the self-posted event
types never read the parameter. -/
def toSelfEvent (t : ESEventType) : ES_Event_t := ⟨t, 0⟩

/-- Fuelled FIFO dispatch of a queue of events to the service, collecting
the observable outputs.  Events posted back to the service during a call
are dispatched before any later external event arrives (in the running
system the queue is empty again long before the next edge is detected). -/
def drain : Nat → DecoderState → List ES_Event_t →
    Option (DecoderState × List MorseOutput)
  | 0, _, _ => none
  | _ + 1, s, [] => some (s, [])
  | fuel + 1, s, e :: q =>
      (RunMorseElementsSM s e).bind fun r =>
        (drain fuel r.state (r.posts.map toSelfEvent ++ q)).map fun p =>
          (p.1, r.outs ++ p.2)

/-- Deliver one externally produced event and then run the self-posted
events to quiescence.  Fuel 8 is ample: a cascade is at most one external
event followed by one self-posted event. -/
def procExt (s : DecoderState) (e : ES_Event_t) :
    Option (DecoderState × List MorseOutput) :=
  drain 8 s [e]

/-- Run a list of externally produced events through the machine in order,
each followed by its self-posted events, concatenating the outputs. -/
def runTrace : DecoderState → List ES_Event_t →
    Option (DecoderState × List MorseOutput)
  | s, [] => some (s, [])
  | s, e :: es =>
      (procExt s e).bind fun p =>
        (runTrace p.1 es).map fun q => (q.1, p.2 ++ q.2)

/-- The module state right after InitMorseElementsService: CurrentState is
the initial pseudo state, FirstDelta is set to 0, and the remaining statics
have their zero initial values. -/
def initialDecoderState : DecoderState :=
  ⟨MorseElementsState_t.InitMorseElements, 0, 0, 0, 0⟩

/-- Events that reach the service from outside it: the framework init
event, the two edge events from the event checker, and the debounced
button event; the three remaining types are only ever self-posted. -/
def isExternal (e : ES_Event_t) : Bool :=
  match e.EventType with
  | ESEventType.ES_INIT => true
  | ESEventType.ES_RISING_EDGE => true
  | ESEventType.ES_FALLING_EDGE => true
  | ESEventType.ES_DB_BUTTON_DOWN => true
  | _ => false

/-- A module state is reachable when some sequence of external events takes
the freshly initialised module to it. -/
def ReachableState (s : DecoderState) : Prop :=
  ∃ evs outs, evs.all isExternal = true ∧
    runTrace initialDecoderState evs = some (s, outs)

/-- The four states the machine occupies only after a completed
calibration. -/
def inPostCal (σ : MorseElementsState_t) : Bool :=
  match σ with
  | MorseElementsState_t.EOC_WaitRise => true
  | MorseElementsState_t.EOC_WaitFall => true
  | MorseElementsState_t.DecodeWaitRise => true
  | MorseElementsState_t.DecodeWaitFall => true
  | _ => false

/-- The state and event combinations in which RunMorseElementsSM calls
CharacterizePulse or CharacterizeSpace. -/
def invokesClassification (s : DecoderState) (e : ES_Event_t) : Bool :=
  match s.CurrentState, e.EventType with
  | MorseElementsState_t.EOC_WaitRise, ESEventType.ES_RISING_EDGE => true
  | MorseElementsState_t.DecodeWaitRise, ESEventType.ES_RISING_EDGE => true
  | MorseElementsState_t.DecodeWaitFall, ESEventType.ES_FALLING_EDGE => true
  | _, _ => false

/-- The state and event combinations handled by a named case arm of
RunMorseElementsSM; every other combination falls to a default arm. -/
def handledEvent (σ : MorseElementsState_t) (t : ESEventType) : Bool :=
  match σ, t with
  | MorseElementsState_t.InitMorseElements, ESEventType.ES_INIT => true
  | MorseElementsState_t.CalWaitForRise, ESEventType.ES_RISING_EDGE => true
  | MorseElementsState_t.CalWaitForRise, ESEventType.ES_CALIBRATION_COMPLETE => true
  | MorseElementsState_t.CalWaitForFall, ESEventType.ES_FALLING_EDGE => true
  | MorseElementsState_t.EOC_WaitRise, ESEventType.ES_RISING_EDGE => true
  | MorseElementsState_t.EOC_WaitRise, ESEventType.ES_DB_BUTTON_DOWN => true
  | MorseElementsState_t.EOC_WaitFall, ESEventType.ES_FALLING_EDGE => true
  | MorseElementsState_t.EOC_WaitFall, ESEventType.ES_DB_BUTTON_DOWN => true
  | MorseElementsState_t.EOC_WaitFall, ESEventType.ES_EOC_DETECTED => true
  | MorseElementsState_t.DecodeWaitRise, ESEventType.ES_RISING_EDGE => true
  | MorseElementsState_t.DecodeWaitRise, ESEventType.ES_DB_BUTTON_DOWN => true
  | MorseElementsState_t.DecodeWaitFall, ESEventType.ES_FALLING_EDGE => true
  | MorseElementsState_t.DecodeWaitFall, ESEventType.ES_DB_BUTTON_DOWN => true
  | _, _ => false

/-- Feeding a list of pulse-width samples to TestCalibration, threading
FirstDelta from an unprimed start and collecting the LengthOfDot values
saved when ES_CALIBRATION_COMPLETE is posted. -/
def calRun : Nat → List Nat → Option (Nat × List Nat)
  | fd, [] => some (fd, [])
  | fd, w :: ws =>
      match TestCalibration fd w with
      | none => none
      | some (fd2, dotSaved) =>
          match calRun fd2 ws with
          | none => none
          | some (fdEnd, dots) => some (fdEnd, dotSaved.toList ++ dots)

/-- The concrete external event trace used for the end-to-end scenario: a
calibration episode with pulse widths 100 and 300 (unit 100), an entry gap
of 300 ticks, then edges realising pulse 100, gap 100, pulse 100, gap 300,
pulse 100, gap 700. -/
def c5Events : List ES_Event_t :=
  [⟨ESEventType.ES_INIT, 0⟩,
   ⟨ESEventType.ES_RISING_EDGE, 100⟩, ⟨ESEventType.ES_FALLING_EDGE, 200⟩,
   ⟨ESEventType.ES_RISING_EDGE, 300⟩, ⟨ESEventType.ES_FALLING_EDGE, 600⟩,
   ⟨ESEventType.ES_RISING_EDGE, 900⟩, ⟨ESEventType.ES_FALLING_EDGE, 1000⟩,
   ⟨ESEventType.ES_RISING_EDGE, 1100⟩, ⟨ESEventType.ES_FALLING_EDGE, 1200⟩,
   ⟨ESEventType.ES_RISING_EDGE, 1500⟩, ⟨ESEventType.ES_FALLING_EDGE, 1600⟩,
   ⟨ESEventType.ES_RISING_EDGE, 2300⟩]

/-- Claim C2: with a positive calibrated LengthOfDot and p the truncating
integer percentage 100 * width / LengthOfDot, CharacterizePulse yields
ShortMark iff p is at most 150, LongMark iff p is at least 250 and BadPulse
exactly on the dead band 151 to 249; CharacterizeSpace yields IntraGap
(with no observable output) iff p is at most 150, EndOfCharacter iff p lies
in 250 to 350, EndOfWord iff p is at least 650, and BadGap exactly on the
dead bands 151 to 249 and 351 to 649. -/
theorem morse_C2 (w dot : Nat) (hdot : 0 < dot) :
    (CharacterizePulse w dot = some PulseClass.shortMark ↔
        100 * w / dot ≤ 150) ∧
    (CharacterizePulse w dot = some PulseClass.longMark ↔
        250 ≤ 100 * w / dot) ∧
    (CharacterizePulse w dot = some PulseClass.badPulse ↔
        (151 ≤ 100 * w / dot ∧ 100 * w / dot ≤ 249)) ∧
    (CharacterizeSpace w dot = some SpaceClass.intraGap ↔
        100 * w / dot ≤ 150) ∧
    (CharacterizeSpace w dot = some SpaceClass.endOfCharacter ↔
        (250 ≤ 100 * w / dot ∧ 100 * w / dot ≤ 350)) ∧
    (CharacterizeSpace w dot = some SpaceClass.endOfWord ↔
        650 ≤ 100 * w / dot) ∧
    (CharacterizeSpace w dot = some SpaceClass.badGap ↔
        ((151 ≤ 100 * w / dot ∧ 100 * w / dot ≤ 249) ∨
         (351 ≤ 100 * w / dot ∧ 100 * w / dot ≤ 649))) ∧
    ((CharacterizeSpace w dot).map spaceOutputs = some [] ↔
        100 * w / dot ≤ 150) := by
  unfold CharacterizePulse CharacterizeSpace
  split_ifs <;> simp_all [spaceOutputs] <;> omega

/-- Witness for morse_C2 at the boundary widths 150, 151 and 650 percent of
a LengthOfDot of 100 ticks. -/
theorem morse_C2_witness :
    CharacterizePulse 150 100 = some PulseClass.shortMark ∧
    CharacterizePulse 151 100 = some PulseClass.badPulse ∧
    CharacterizeSpace 650 100 = some SpaceClass.endOfWord := by
  refine ⟨(morse_C2 150 100 (by decide)).1.mpr (by decide),
          (morse_C2 151 100 (by decide)).2.2.1.mpr (by decide),
          (morse_C2 650 100 (by decide)).2.2.2.2.2.1.mpr (by decide)⟩

/-- Claim C6: the pulse width TimeOfLastFall minus TimeOfLastRise and the
gap width TimeOfLastRise minus TimeOfLastFall are computed with wraparound
uint16 subtraction, so each equals the mathematical (b - a + M) mod M with
M = 2^16; in particular the duration from timestamp M - 1 to timestamp 5
is 6. -/
theorem morse_C6 (s : DecoderState)
    (h1 : s.TimeOfLastRise < 65536) (h2 : s.TimeOfLastFall < 65536) :
    ((sub16 s.TimeOfLastFall s.TimeOfLastRise : Int) =
        ((s.TimeOfLastFall : Int) - (s.TimeOfLastRise : Int) + 65536) % 65536 ∧
     (sub16 s.TimeOfLastRise s.TimeOfLastFall : Int) =
        ((s.TimeOfLastRise : Int) - (s.TimeOfLastFall : Int) + 65536) % 65536) ∧
    sub16 5 65535 = 6 := by
  refine ⟨⟨?_, ?_⟩, by decide⟩ <;> (unfold sub16; omega)

/-- Witness for morse_C6: a module state whose last rise was at tick 65535
and whose last fall was at tick 5 gives a pulse width of 6. -/
theorem morse_C6_witness :
    sub16 (DecoderState.TimeOfLastFall ⟨MorseElementsState_t.DecodeWaitRise, 65535, 5, 100, 100⟩)
        (DecoderState.TimeOfLastRise ⟨MorseElementsState_t.DecodeWaitRise, 65535, 5, 100, 100⟩) = 6 ∧
    (sub16 5 65535 : Int) = ((5 - 65535 + 65536) % 65536 : Int) := by
  have h := morse_C6 ⟨MorseElementsState_t.DecodeWaitRise, 65535, 5, 100, 100⟩
      (by decide) (by decide)
  exact ⟨h.2, by simpa using h.1.1⟩

/-- Claim C8: a state and event combination without a named case arm in
RunMorseElementsSM leaves every module variable unchanged, produces no
output, posts nothing, and returns ES_NO_EVENT. -/
theorem morse_C8 (s : DecoderState) (e : ES_Event_t)
    (h : handledEvent s.CurrentState e.EventType = false) :
    RunMorseElementsSM s e = some ⟨s, [], [], ESEventType.ES_NO_EVENT⟩ := by
  obtain ⟨cs, tr, tf, fd, dot⟩ := s
  obtain ⟨et, p⟩ := e
  cases cs <;> cases et <;> simp_all [handledEvent, RunMorseElementsSM]

/-- Witness for morse_C8: a falling edge arriving in CalWaitForRise is
silently dropped. -/
theorem morse_C8_witness :
    RunMorseElementsSM ⟨MorseElementsState_t.CalWaitForRise, 7, 8, 9, 10⟩
        ⟨ESEventType.ES_FALLING_EDGE, 123⟩ =
      some ⟨⟨MorseElementsState_t.CalWaitForRise, 7, 8, 9, 10⟩, [], [],
            ESEventType.ES_NO_EVENT⟩ :=
  morse_C8 ⟨MorseElementsState_t.CalWaitForRise, 7, 8, 9, 10⟩
    ⟨ESEventType.ES_FALLING_EDGE, 123⟩ (by decide)

/-- Claim C10: in TestCalibration the ratio 100 * FirstDelta / SecondDelta
is evaluated before the guard on SecondDelta, so the call is free of
division by zero exactly when the engine is still unprimed (FirstDelta is
0) or the arriving sample width is nonzero. -/
theorem morse_C10 (FirstDelta DeltaTime : Nat) :
    (TestCalibration FirstDelta DeltaTime).isSome = true ↔
      (FirstDelta = 0 ∨ DeltaTime ≠ 0) := by
  unfold TestCalibration
  split_ifs <;> simp_all

/-- Witness for morse_C10: a zero-width sample after priming reaches the
unguarded division, while the same zero width is harmless when unprimed. -/
theorem morse_C10_witness :
    (TestCalibration 50 0).isSome = false ∧
    (TestCalibration 0 0).isSome = true := by
  constructor
  · have h := morse_C10 50 0
    have hr : ¬ ((50 : Nat) = 0 ∨ (0 : Nat) ≠ 0) := by decide
    exact Bool.eq_false_iff.mpr fun hb => hr (h.mp hb)
  · exact (morse_C10 0 0).mpr (Or.inl rfl)

/-- Priming step: an unprimed engine stores the sample as FirstDelta and
does not converge. -/
lemma TestCalibration_unprimed (w : Nat) : TestCalibration 0 w = some (w, none) := by
  simp [TestCalibration]

/-- A primed engine fed an equal positive sample shifts the window and does
not converge. -/
lemma TestCalibration_equal (a : Nat) (ha : 0 < a) :
    TestCalibration a a = some (a, none) := by
  have hone : 100 * a / a = 100 := Nat.mul_div_cancel 100 ha
  unfold TestCalibration
  simp only [hone]
  split_ifs <;> first | rfl | (exfalso; omega)

/-- Helper for calRun on a uniform sample stream: FirstDelta stays in the
set of zero and the sample value, and no convergence is ever reported. -/
lemma calRun_replicate (a : Nat) :
    ∀ (n fd : Nat), fd = 0 ∨ fd = a →
      ∃ fd2, calRun fd (List.replicate n a) = some (fd2, []) ∧ (fd2 = 0 ∨ fd2 = a) := by
  intro n
  induction n with
  | zero =>
      intro fd hfd
      exact ⟨fd, rfl, hfd⟩
  | succ m ih =>
      intro fd hfd
      rcases Nat.eq_zero_or_pos fd with hz | hp
      · subst hz
        obtain ⟨fd2, hrun, hset⟩ := ih a (Or.inr rfl)
        refine ⟨fd2, ?_, hset⟩
        simp [List.replicate_succ, calRun, TestCalibration_unprimed, hrun]
      · have hfa : fd = a := by omega
        subst hfa
        obtain ⟨fd2, hrun, hset⟩ := ih fd hfd
        refine ⟨fd2, ?_, hset⟩
        simp [List.replicate_succ, calRun, TestCalibration_equal fd hp, hrun]

/-- Claim C1 as frozen is refuted by the zero-width sample pair 0, 3: the
hypothesis b at least 3a holds, yet the zero first sample cannot prime the
engine (zero is the sentinel for unprimed), so no ES_CALIBRATION_COMPLETE
is posted within the two samples and no LengthOfDot equal to min(a, b) is
saved. -/
theorem morse_C1_cex :
    ¬ (∀ a b : Nat, (3 * a ≤ b ∨ 3 * b ≤ a) →
        ∃ fd, calRun 0 [a, b] = some (fd, [min a b])) := by
  intro h
  obtain ⟨fd, hfd⟩ := h 0 3 (Or.inl (by decide))
  rw [show calRun 0 [0, 3] = some (3, []) from rfl] at hfd
  simp at hfd

/-- Claim C1 amended: for positive samples a, b with b at least 3a or a at
least 3b, the engine started unprimed converges on exactly the second
sample, saving LengthOfDot = min(a, b) and posting one
ES_CALIBRATION_COMPLETE; and a uniform stream of equal-width samples never
converges, whatever its length. -/
theorem morse_C1_amended :
    (∀ a b : Nat, 1 ≤ a → 1 ≤ b → (3 * a ≤ b ∨ 3 * b ≤ a) →
        calRun 0 [a, b] = some (a, [min a b])) ∧
    (∀ a n : Nat, ∃ fd, calRun 0 (List.replicate n a) = some (fd, [])) := by
  constructor
  · intro a b ha hb hab
    have hstep1 : TestCalibration 0 a = some (a, none) := TestCalibration_unprimed a
    rcases hab with h3a | h3b
    · have hblt : 0 < b := by omega
      have hdiv : 100 * a / b ≤ 33 := by
        have := (Nat.div_lt_iff_lt_mul hblt).mpr (show 100 * a < 34 * b by omega)
        omega
      have hstep2 : TestCalibration a b = some (a, some a) := by
        unfold TestCalibration
        split_ifs <;> first | rfl | (exfalso; omega)
      have hmin : min a b = a := by omega
      simp [calRun, hstep1, hstep2, hmin]
    · have hblt : 0 < b := by omega
      have hdiv : 300 ≤ 100 * a / b := by
        exact (Nat.le_div_iff_mul_le hblt).mpr (by omega)
      have hstep2 : TestCalibration a b = some (a, some b) := by
        unfold TestCalibration
        split_ifs <;> first | rfl | (exfalso; omega)
      have hmin : min a b = b := by omega
      simp [calRun, hstep1, hstep2, hmin]
  · intro a n
    obtain ⟨fd2, hrun, _⟩ := calRun_replicate a n 0 (Or.inl rfl)
    exact ⟨fd2, hrun⟩

/-- Witness for morse_C1_amended at the calibration scenario of the spec:
samples 90 then 310 converge to 90, samples 310 then 90 also converge to
90, and five equal samples of 100 never converge. -/
theorem morse_C1_witness :
    calRun 0 [90, 310] = some (90, [90]) ∧
    calRun 0 [310, 90] = some (310, [90]) ∧
    ∃ fd, calRun 0 (List.replicate 5 100) = some (fd, []) := by
  refine ⟨?_, ?_, morse_C1_amended.2 100 5⟩
  · have h := morse_C1_amended.1 90 310 (by decide) (by decide) (Or.inl (by decide))
    simpa using h
  · have h := morse_C1_amended.1 310 90 (by decide) (by decide) (Or.inr (by decide))
    simpa using h

/-- Claim C5 as frozen is refuted on the realising transition sequence
c5Events: two gaps cannot be adjacent on a two-level line, so the 700-tick
end-of-word gap is necessarily preceded by one more pulse (here of width
100), and entering the decode states at all requires an initial
end-of-character gap; the run therefore produces six outputs, not the four
the claim lists. -/
theorem morse_C5_cex :
    (runTrace initialDecoderState c5Events).map Prod.snd =
      some [MorseOutput.endOfCharacter, MorseOutput.shortMark,
            MorseOutput.shortMark, MorseOutput.endOfCharacter,
            MorseOutput.shortMark, MorseOutput.endOfWord] ∧
    [MorseOutput.endOfCharacter, MorseOutput.shortMark,
     MorseOutput.shortMark, MorseOutput.endOfCharacter,
     MorseOutput.shortMark, MorseOutput.endOfWord] ≠
      [MorseOutput.shortMark, MorseOutput.shortMark,
       MorseOutput.endOfCharacter, MorseOutput.endOfWord] := by
  constructor
  · rfl
  · decide

/-- Claim C5 amended: running the machine from construction over c5Events
(calibrating the unit to 100, then realising pulse 100, gap 100, pulse
100, gap 300, pulse 100, gap 700) ends in DecodeWaitFall and produces
exactly EndOfCharacter (decode entry), ShortMark, ShortMark,
EndOfCharacter, ShortMark, EndOfWord, with no BadPulse and no BadGap
anywhere in the output. -/
theorem morse_C5_amended :
    runTrace initialDecoderState c5Events =
      some (⟨MorseElementsState_t.DecodeWaitFall, 2300, 1600, 100, 100⟩,
            [MorseOutput.endOfCharacter, MorseOutput.shortMark,
             MorseOutput.shortMark, MorseOutput.endOfCharacter,
             MorseOutput.shortMark, MorseOutput.endOfWord]) ∧
    MorseOutput.badPulse ∉
      [MorseOutput.endOfCharacter, MorseOutput.shortMark,
       MorseOutput.shortMark, MorseOutput.endOfCharacter,
       MorseOutput.shortMark, MorseOutput.endOfWord] ∧
    MorseOutput.badGap ∉
      [MorseOutput.endOfCharacter, MorseOutput.shortMark,
       MorseOutput.shortMark, MorseOutput.endOfCharacter,
       MorseOutput.shortMark, MorseOutput.endOfWord] := by
  exact ⟨rfl, by decide, by decide⟩

/-- Unfolding lemma for drain on a nonempty queue. -/
lemma drain_cons (fuel : Nat) (s : DecoderState) (e : ES_Event_t)
    (q : List ES_Event_t) :
    drain (fuel + 1) s (e :: q) =
      (RunMorseElementsSM s e).bind fun r =>
        (drain fuel r.state (r.posts.map toSelfEvent ++ q)).map fun p =>
          (p.1, r.outs ++ p.2) := rfl

/-- Unfolding lemma for drain on an empty queue. -/
lemma drain_nil (fuel : Nat) (s : DecoderState) :
    drain (fuel + 1) s [] = some (s, []) := rfl

/-- Delivering an external event whose handler posts nothing. -/
lemma procExt_no_post (s : DecoderState) (e : ES_Event_t) (r : StepResult)
    (h1 : RunMorseElementsSM s e = some r) (hp : r.posts = []) :
    procExt s e = some (r.state, r.outs) := by
  unfold procExt
  rw [show (8 : Nat) = 7 + 1 from rfl, drain_cons, h1]
  simp only [Option.bind, hp, List.map_nil, List.nil_append]
  rw [show (7 : Nat) = 6 + 1 from rfl, drain_nil]
  simp

/-- Delivering an external event whose handler posts one event back to the
service, whose own handler posts nothing. -/
lemma procExt_one_post (s : DecoderState) (e : ES_Event_t) (r1 : StepResult)
    (t : ESEventType) (r2 : StepResult)
    (h1 : RunMorseElementsSM s e = some r1) (hp1 : r1.posts = [t])
    (h2 : RunMorseElementsSM r1.state (toSelfEvent t) = some r2)
    (hp2 : r2.posts = []) :
    procExt s e = some (r2.state, r1.outs ++ r2.outs) := by
  unfold procExt
  rw [show (8 : Nat) = 7 + 1 from rfl, drain_cons, h1]
  simp only [Option.bind, hp1, List.map_cons, List.map_nil, List.nil_append,
    List.append_nil]
  rw [show (7 : Nat) = 6 + 1 from rfl, drain_cons, h2]
  simp only [Option.bind, hp2, List.map_nil, List.nil_append]
  rw [show (6 : Nat) = 5 + 1 from rfl, drain_nil]
  simp

/-- Claim C3 as frozen is refuted in the calibration states: the machine
state CalWaitForFall with a primed FirstDelta of 50 is reachable (init,
rise at 0, fall at 50, rise at 100), yet ES_DB_BUTTON_DOWN there falls to
the default arm, leaving the machine in CalWaitForFall with FirstDelta
still 50 instead of moving to CalWaitForRise with FirstDelta cleared. -/
theorem morse_C3_cex :
    ¬ (∀ (s : DecoderState) (r : StepResult), ReachableState s →
        RunMorseElementsSM s ⟨ESEventType.ES_DB_BUTTON_DOWN, 0⟩ = some r →
        r.state.CurrentState = MorseElementsState_t.CalWaitForRise ∧
        r.state.FirstDelta = 0) := by
  intro h
  have hreach : ReachableState ⟨MorseElementsState_t.CalWaitForFall, 100, 50, 50, 0⟩ :=
    ⟨[⟨ESEventType.ES_INIT, 0⟩, ⟨ESEventType.ES_RISING_EDGE, 0⟩,
      ⟨ESEventType.ES_FALLING_EDGE, 50⟩, ⟨ESEventType.ES_RISING_EDGE, 100⟩],
     [], rfl, rfl⟩
  have hc := h ⟨MorseElementsState_t.CalWaitForFall, 100, 50, 50, 0⟩
      ⟨⟨MorseElementsState_t.CalWaitForFall, 100, 50, 50, 0⟩, [], [],
       ESEventType.ES_NO_EVENT⟩ hreach rfl
  exact absurd hc.1 (by decide)

/-- Claim C3 amended: ES_DB_BUTTON_DOWN is a reset exactly in the four
post-calibration states, where it moves the machine to CalWaitForRise and
clears FirstDelta while leaving the timestamps and LengthOfDot alone; in
InitMorseElements, CalWaitForRise and CalWaitForFall it is silently
ignored.  After the reset the control state and FirstDelta coincide with
their values after initial construction plus ES_INIT, so a following
calibration behaves as one started from scratch (TestCalibration reads
only FirstDelta and the incoming widths). -/
theorem morse_C3_amended (s : DecoderState) (p : Nat) :
    ((s.CurrentState = MorseElementsState_t.EOC_WaitRise ∨
      s.CurrentState = MorseElementsState_t.EOC_WaitFall ∨
      s.CurrentState = MorseElementsState_t.DecodeWaitRise ∨
      s.CurrentState = MorseElementsState_t.DecodeWaitFall) →
      RunMorseElementsSM s ⟨ESEventType.ES_DB_BUTTON_DOWN, p⟩ =
        some ⟨⟨MorseElementsState_t.CalWaitForRise, s.TimeOfLastRise,
               s.TimeOfLastFall, 0, s.LengthOfDot⟩,
              [], [], ESEventType.ES_NO_EVENT⟩) ∧
    ((s.CurrentState = MorseElementsState_t.InitMorseElements ∨
      s.CurrentState = MorseElementsState_t.CalWaitForRise ∨
      s.CurrentState = MorseElementsState_t.CalWaitForFall) →
      RunMorseElementsSM s ⟨ESEventType.ES_DB_BUTTON_DOWN, p⟩ =
        some ⟨s, [], [], ESEventType.ES_NO_EVENT⟩) ∧
    RunMorseElementsSM initialDecoderState ⟨ESEventType.ES_INIT, 0⟩ =
      some ⟨⟨MorseElementsState_t.CalWaitForRise, 0, 0, 0, 0⟩, [], [],
            ESEventType.ES_NO_EVENT⟩ := by
  obtain ⟨cs, tr, tf, fd, dot⟩ := s
  refine ⟨fun h => ?_, fun h => ?_, rfl⟩
  · rcases h with h | h | h | h <;> (simp only at h; subst h; rfl)
  · rcases h with h | h | h <;> (simp only at h; subst h; rfl)

/-- Witness for morse_C3_amended: the button event in DecodeWaitFall resets
to CalWaitForRise with FirstDelta cleared, and is ignored in
CalWaitForRise. -/
theorem morse_C3_witness :
    RunMorseElementsSM ⟨MorseElementsState_t.DecodeWaitFall, 900, 600, 100, 100⟩
        ⟨ESEventType.ES_DB_BUTTON_DOWN, 0⟩ =
      some ⟨⟨MorseElementsState_t.CalWaitForRise, 900, 600, 0, 100⟩, [], [],
            ESEventType.ES_NO_EVENT⟩ ∧
    RunMorseElementsSM ⟨MorseElementsState_t.CalWaitForRise, 1, 2, 3, 4⟩
        ⟨ESEventType.ES_DB_BUTTON_DOWN, 0⟩ =
      some ⟨⟨MorseElementsState_t.CalWaitForRise, 1, 2, 3, 4⟩, [], [],
            ESEventType.ES_NO_EVENT⟩ :=
  ⟨(morse_C3_amended ⟨MorseElementsState_t.DecodeWaitFall, 900, 600, 100, 100⟩ 0).1
      (Or.inr (Or.inr (Or.inr rfl))),
   (morse_C3_amended ⟨MorseElementsState_t.CalWaitForRise, 1, 2, 3, 4⟩ 0).2.1
      (Or.inr (Or.inl rfl))⟩

/-- The concrete external event trace used against claim C4: calibrate the
unit to 100, enter the decode states through a 300-tick gap, decode two
short pulses, then present a 700-tick end-of-word gap. -/
def c4Events : List ES_Event_t :=
  [⟨ESEventType.ES_INIT, 0⟩,
   ⟨ESEventType.ES_RISING_EDGE, 0⟩, ⟨ESEventType.ES_FALLING_EDGE, 100⟩,
   ⟨ESEventType.ES_RISING_EDGE, 200⟩, ⟨ESEventType.ES_FALLING_EDGE, 500⟩,
   ⟨ESEventType.ES_RISING_EDGE, 800⟩, ⟨ESEventType.ES_FALLING_EDGE, 900⟩,
   ⟨ESEventType.ES_RISING_EDGE, 1000⟩, ⟨ESEventType.ES_FALLING_EDGE, 1100⟩,
   ⟨ESEventType.ES_RISING_EDGE, 1800⟩]

/-- Claim C4 as frozen is refuted on c4Events: after the rising edge whose
preceding 700-tick gap classifies as EndOfWord, the self-posted
ES_EOW_DETECTED is delivered and processed, yet no state of the machine
handles it, so the machine remains in DecodeWaitFall and never returns to
EOC_WaitRise. -/
theorem morse_C4_cex :
    (runTrace initialDecoderState c4Events).map (fun r => r.1.CurrentState) =
      some MorseElementsState_t.DecodeWaitFall ∧
    MorseElementsState_t.DecodeWaitFall ≠ MorseElementsState_t.EOC_WaitRise :=
  ⟨rfl, by decide⟩

/-- Claim C4 amended: a rising edge in DecodeWaitRise whose gap classifies
as EndOfWord emits the EndOfWord output, posts ES_EOW_DETECTED back to the
service, and moves to DecodeWaitFall; the delivered ES_EOW_DETECTED is
silently ignored in every state, so after the dispatch cascade the machine
sits in DecodeWaitFall, not EOC_WaitRise. -/
theorem morse_C4_amended :
    (∀ (s : DecoderState) (p : Nat),
      s.CurrentState = MorseElementsState_t.DecodeWaitRise →
      0 < s.LengthOfDot →
      650 ≤ 100 * sub16 (p % 65536) s.TimeOfLastFall / s.LengthOfDot →
      procExt s ⟨ESEventType.ES_RISING_EDGE, p⟩ =
        some (⟨MorseElementsState_t.DecodeWaitFall, p % 65536, s.TimeOfLastFall,
               s.FirstDelta, s.LengthOfDot⟩,
              [MorseOutput.endOfWord])) ∧
    (∀ s : DecoderState,
      RunMorseElementsSM s (toSelfEvent ESEventType.ES_EOW_DETECTED) =
        some ⟨s, [], [], ESEventType.ES_NO_EVENT⟩) := by
  constructor
  · intro s p hcs hdot hq
    obtain ⟨cs, tr, tf, fd, dot⟩ := s
    simp only at hcs hdot hq
    subst hcs
    have hspace : CharacterizeSpace (sub16 (p % 65536) tf) dot =
        some SpaceClass.endOfWord := by
      unfold CharacterizeSpace
      split_ifs <;> first | rfl | (exfalso; omega)
    have h1 : RunMorseElementsSM ⟨MorseElementsState_t.DecodeWaitRise, tr, tf, fd, dot⟩
        ⟨ESEventType.ES_RISING_EDGE, p⟩ =
        some ⟨⟨MorseElementsState_t.DecodeWaitFall, p % 65536, tf, fd, dot⟩,
              [MorseOutput.endOfWord], [ESEventType.ES_EOW_DETECTED],
              ESEventType.ES_NO_EVENT⟩ := by
      simp [RunMorseElementsSM, hspace, spaceOutputs, spacePosts]
    have h2 : RunMorseElementsSM ⟨MorseElementsState_t.DecodeWaitFall, p % 65536, tf, fd, dot⟩
        (toSelfEvent ESEventType.ES_EOW_DETECTED) =
        some ⟨⟨MorseElementsState_t.DecodeWaitFall, p % 65536, tf, fd, dot⟩,
              [], [], ESEventType.ES_NO_EVENT⟩ := rfl
    have h := procExt_one_post _ _ _ _ _ h1 rfl h2 rfl
    simpa using h
  · intro s
    obtain ⟨cs, tr, tf, fd, dot⟩ := s
    cases cs <;> rfl

/-- Witness for morse_C4_amended: the decode-state end-of-word path on the
concrete state reached in c4Events. -/
theorem morse_C4_witness :
    procExt ⟨MorseElementsState_t.DecodeWaitRise, 1000, 1100, 100, 100⟩
        ⟨ESEventType.ES_RISING_EDGE, 1800⟩ =
      some (⟨MorseElementsState_t.DecodeWaitFall, 1800, 1100, 100, 100⟩,
            [MorseOutput.endOfWord]) := by
  have h := morse_C4_amended.1
      ⟨MorseElementsState_t.DecodeWaitRise, 1000, 1100, 100, 100⟩ 1800
      rfl (by decide) (by decide)
  exact h

/-- Claim C9: RunMorseElementsSM returns ES_NO_EVENT on every call, and an
ambiguous width is handled atomically: a dead-band pulse in DecodeWaitFall
updates TimeOfLastFall and moves to DecodeWaitRise exactly as a
well-classified pulse does, with BadPulse as the only output and nothing
posted; a dead-band gap in DecodeWaitRise or EOC_WaitRise updates
TimeOfLastRise and moves to the corresponding fall-wait state, with BadGap
as the only output and nothing posted. -/
theorem morse_C9 :
    (∀ (s : DecoderState) (e : ES_Event_t) (r : StepResult),
        RunMorseElementsSM s e = some r → r.ret = ESEventType.ES_NO_EVENT) ∧
    (∀ (s : DecoderState) (p : Nat),
        s.CurrentState = MorseElementsState_t.DecodeWaitFall →
        0 < s.LengthOfDot →
        151 ≤ 100 * sub16 (p % 65536) s.TimeOfLastRise / s.LengthOfDot →
        100 * sub16 (p % 65536) s.TimeOfLastRise / s.LengthOfDot ≤ 249 →
        RunMorseElementsSM s ⟨ESEventType.ES_FALLING_EDGE, p⟩ =
          some ⟨⟨MorseElementsState_t.DecodeWaitRise, s.TimeOfLastRise, p % 65536,
                 s.FirstDelta, s.LengthOfDot⟩,
                [MorseOutput.badPulse], [], ESEventType.ES_NO_EVENT⟩) ∧
    (∀ (s : DecoderState) (p : Nat),
        s.CurrentState = MorseElementsState_t.DecodeWaitRise →
        0 < s.LengthOfDot →
        ((151 ≤ 100 * sub16 (p % 65536) s.TimeOfLastFall / s.LengthOfDot ∧
          100 * sub16 (p % 65536) s.TimeOfLastFall / s.LengthOfDot ≤ 249) ∨
         (351 ≤ 100 * sub16 (p % 65536) s.TimeOfLastFall / s.LengthOfDot ∧
          100 * sub16 (p % 65536) s.TimeOfLastFall / s.LengthOfDot ≤ 649)) →
        RunMorseElementsSM s ⟨ESEventType.ES_RISING_EDGE, p⟩ =
          some ⟨⟨MorseElementsState_t.DecodeWaitFall, p % 65536, s.TimeOfLastFall,
                 s.FirstDelta, s.LengthOfDot⟩,
                [MorseOutput.badGap], [], ESEventType.ES_NO_EVENT⟩) ∧
    (∀ (s : DecoderState) (p : Nat),
        s.CurrentState = MorseElementsState_t.EOC_WaitRise →
        0 < s.LengthOfDot →
        ((151 ≤ 100 * sub16 (p % 65536) s.TimeOfLastFall / s.LengthOfDot ∧
          100 * sub16 (p % 65536) s.TimeOfLastFall / s.LengthOfDot ≤ 249) ∨
         (351 ≤ 100 * sub16 (p % 65536) s.TimeOfLastFall / s.LengthOfDot ∧
          100 * sub16 (p % 65536) s.TimeOfLastFall / s.LengthOfDot ≤ 649)) →
        RunMorseElementsSM s ⟨ESEventType.ES_RISING_EDGE, p⟩ =
          some ⟨⟨MorseElementsState_t.EOC_WaitFall, p % 65536, s.TimeOfLastFall,
                 s.FirstDelta, s.LengthOfDot⟩,
                [MorseOutput.badGap], [], ESEventType.ES_NO_EVENT⟩) := by
  refine ⟨?_, ?_, ?_, ?_⟩
  · intro s e r h
    obtain ⟨cs, tr, tf, fd, dot⟩ := s
    obtain ⟨et, pp⟩ := e
    cases cs <;> cases et <;>
      simp only [RunMorseElementsSM] at h <;>
      (try split at h) <;>
      first
        | (injection h with h2; subst h2; rfl)
        | exact Option.noConfusion h
  · intro s p hcs hdot hlo hhi
    obtain ⟨cs, tr, tf, fd, dot⟩ := s
    simp only at hcs hdot hlo hhi
    subst hcs
    have hpulse : CharacterizePulse (sub16 (p % 65536) tr) dot =
        some PulseClass.badPulse := by
      unfold CharacterizePulse
      split_ifs <;> first | rfl | (exfalso; omega)
    simp [RunMorseElementsSM, hpulse, pulseOutputs]
  · intro s p hcs hdot hband
    obtain ⟨cs, tr, tf, fd, dot⟩ := s
    simp only at hcs hdot hband
    subst hcs
    have hspace : CharacterizeSpace (sub16 (p % 65536) tf) dot =
        some SpaceClass.badGap := by
      unfold CharacterizeSpace
      split_ifs <;> first | rfl | (exfalso; omega)
    simp [RunMorseElementsSM, hspace, spaceOutputs, spacePosts]
  · intro s p hcs hdot hband
    obtain ⟨cs, tr, tf, fd, dot⟩ := s
    simp only at hcs hdot hband
    subst hcs
    have hspace : CharacterizeSpace (sub16 (p % 65536) tf) dot =
        some SpaceClass.badGap := by
      unfold CharacterizeSpace
      split_ifs <;> first | rfl | (exfalso; omega)
    simp [RunMorseElementsSM, hspace, spaceOutputs, spacePosts]

/-- Witness for morse_C9: a 200-tick pulse against a 100-tick unit (a 200
percent dead-band width) in DecodeWaitFall yields exactly BadPulse with
the normal timestamp and state update. -/
theorem morse_C9_witness :
    RunMorseElementsSM ⟨MorseElementsState_t.DecodeWaitFall, 900, 600, 100, 100⟩
        ⟨ESEventType.ES_FALLING_EDGE, 1100⟩ =
      some ⟨⟨MorseElementsState_t.DecodeWaitRise, 900, 1100, 100, 100⟩,
            [MorseOutput.badPulse], [], ESEventType.ES_NO_EVENT⟩ := by
  have h := morse_C9.2.1 ⟨MorseElementsState_t.DecodeWaitFall, 900, 600, 100, 100⟩
      1100 rfl (by decide) (by decide) (by decide)
  exact h

/-- When TestCalibration saves a LengthOfDot it is positive: the first
converging branch is guarded by FirstDelta nonzero and the second by
SecondDelta nonzero. -/
lemma TestCalibration_dot_pos (fd dt fd2 d : Nat)
    (h : TestCalibration fd dt = some (fd2, some d)) : 0 < d := by
  unfold TestCalibration at h
  split_ifs at h <;> simp_all <;> omega

/-- Frame facts about one call of RunMorseElementsSM used by the
LengthOfDot invariant: LengthOfDot is preserved or made positive,
ES_CALIBRATION_COMPLETE is posted only with a positive LengthOfDot in
place, the post-calibration states are entered only from a
post-calibration state or through ES_CALIBRATION_COMPLETE in
CalWaitForRise, and no call from a post-calibration state or on
ES_CALIBRATION_COMPLETE changes LengthOfDot. -/
lemma step_facts (s : DecoderState) (e : ES_Event_t) (r : StepResult)
    (h : RunMorseElementsSM s e = some r) :
    (r.state.LengthOfDot = s.LengthOfDot ∨ 0 < r.state.LengthOfDot) ∧
    (ESEventType.ES_CALIBRATION_COMPLETE ∈ r.posts → 0 < r.state.LengthOfDot) ∧
    (inPostCal r.state.CurrentState = true →
      inPostCal s.CurrentState = true ∨
      (s.CurrentState = MorseElementsState_t.CalWaitForRise ∧
       e.EventType = ESEventType.ES_CALIBRATION_COMPLETE)) ∧
    ((inPostCal s.CurrentState = true ∨
      e.EventType = ESEventType.ES_CALIBRATION_COMPLETE) →
      r.state.LengthOfDot = s.LengthOfDot) := by
  obtain ⟨cs, tr, tf, fd, dot⟩ := s
  obtain ⟨et, pp⟩ := e
  cases cs <;> cases et <;>
    simp only [RunMorseElementsSM] at h <;>
    try (injection h with h2; subst h2;
         exact ⟨Or.inl rfl, by simp, by simp [inPostCal], by simp [inPostCal]⟩)
  · rcases hTC : TestCalibration fd (sub16 (pp % 65536) tr) with _ | ⟨fd2, dotOpt⟩
    · rw [hTC] at h
      exact Option.noConfusion h
    · rcases dotOpt with _ | d
      · rw [hTC] at h
        injection h with h2
        subst h2
        exact ⟨Or.inl rfl, by simp, by simp [inPostCal], by simp [inPostCal]⟩
      · rw [hTC] at h
        injection h with h2
        subst h2
        have hd := TestCalibration_dot_pos fd _ fd2 d hTC
        exact ⟨Or.inr hd, fun _ => hd, by simp [inPostCal], by simp [inPostCal]⟩
  · rcases hCS : CharacterizeSpace (sub16 (pp % 65536) tf) dot with _ | c
    · rw [hCS] at h
      exact Option.noConfusion h
    · rw [hCS] at h
      injection h with h2
      subst h2
      refine ⟨Or.inl rfl, ?_, by simp [inPostCal], by simp [inPostCal]⟩
      intro hmem
      exact absurd hmem (by cases c <;> simp [spacePosts])
  · rcases hCS : CharacterizeSpace (sub16 (pp % 65536) tf) dot with _ | c
    · rw [hCS] at h
      exact Option.noConfusion h
    · rw [hCS] at h
      injection h with h2
      subst h2
      refine ⟨Or.inl rfl, ?_, by simp [inPostCal], by simp [inPostCal]⟩
      intro hmem
      exact absurd hmem (by cases c <;> simp [spacePosts])
  · rcases hCP : CharacterizePulse (sub16 (pp % 65536) tr) dot with _ | c
    · rw [hCP] at h
      exact Option.noConfusion h
    · rw [hCP] at h
      injection h with h2
      subst h2
      exact ⟨Or.inl rfl, by simp, by simp [inPostCal], by simp [inPostCal]⟩

/-- The LengthOfDot invariant survives draining a queue, provided any
pending ES_CALIBRATION_COMPLETE in the queue already has a positive
LengthOfDot in place. -/
lemma drain_inv :
    ∀ (fuel : Nat) (s : DecoderState) (q : List ES_Event_t)
      (s2 : DecoderState) (outs : List MorseOutput),
      (inPostCal s.CurrentState = true → 0 < s.LengthOfDot) →
      (∀ e ∈ q, e.EventType = ESEventType.ES_CALIBRATION_COMPLETE →
        0 < s.LengthOfDot) →
      drain fuel s q = some (s2, outs) →
      inPostCal s2.CurrentState = true → 0 < s2.LengthOfDot := by
  intro fuel
  induction fuel with
  | zero =>
      intro s q s2 outs _ _ h
      exact Option.noConfusion h
  | succ n ih =>
      intro s q s2 outs hInv hq h
      match q with
      | [] =>
          rw [drain_nil] at h
          injection h with h2
          injection h2 with ha hb
          subst ha
          exact hInv
      | e :: q2 =>
          rw [drain_cons] at h
          rcases hR : RunMorseElementsSM s e with _ | r
          · rw [hR] at h
            exact Option.noConfusion h
          · rw [hR] at h
            simp only [Option.bind] at h
            rcases hd : drain n r.state (r.posts.map toSelfEvent ++ q2)
                with _ | ⟨ps, pouts⟩
            · rw [hd] at h
              exact Option.noConfusion h
            · rw [hd] at h
              simp only [Option.map] at h
              injection h with h2
              injection h2 with ha hb
              subst ha
              have F := step_facts s e r hR
              apply ih r.state (r.posts.map toSelfEvent ++ q2) ps pouts ?_ ?_ hd
              · intro hpc
                rcases F.2.2.1 hpc with hpost | ⟨hcw, hce⟩
                · have h1 := hInv hpost
                  have h2 := F.2.2.2 (Or.inl hpost)
                  omega
                · have h1 : 0 < s.LengthOfDot :=
                    hq e (List.mem_cons_self e q2) hce
                  have h2 := F.2.2.2 (Or.inr hce)
                  omega
              · intro e2 hmem hce2
                rcases List.mem_append.mp hmem with hin | hin
                · obtain ⟨t, ht, rfl⟩ := List.mem_map.mp hin
                  have ht2 : t = ESEventType.ES_CALIBRATION_COMPLETE := hce2
                  subst ht2
                  exact F.2.1 ht
                · have h1 : 0 < s.LengthOfDot :=
                    hq e2 (List.mem_cons_of_mem e hin) hce2
                  rcases F.1 with heq | hpos
                  · omega
                  · exact hpos

/-- An external event is never ES_CALIBRATION_COMPLETE. -/
lemma isExternal_not_cal (e : ES_Event_t) (h : isExternal e = true) :
    e.EventType ≠ ESEventType.ES_CALIBRATION_COMPLETE := by
  obtain ⟨et, pp⟩ := e
  cases et <;> simp_all [isExternal]

/-- The LengthOfDot invariant survives a whole external trace. -/
lemma runTrace_inv :
    ∀ (evs : List ES_Event_t) (s s2 : DecoderState) (outs : List MorseOutput),
      (inPostCal s.CurrentState = true → 0 < s.LengthOfDot) →
      evs.all isExternal = true →
      runTrace s evs = some (s2, outs) →
      inPostCal s2.CurrentState = true → 0 < s2.LengthOfDot := by
  intro evs
  induction evs with
  | nil =>
      intro s s2 outs hInv _ h
      injection h with h2
      injection h2 with ha hb
      subst ha
      exact hInv
  | cons e es ih =>
      intro s s2 outs hInv hall h
      simp only [List.all_cons, Bool.and_eq_true] at hall
      rw [runTrace] at h
      rcases hp : procExt s e with _ | ⟨s1, outs1⟩
      · rw [hp] at h
        exact Option.noConfusion h
      · rw [hp] at h
        simp only [Option.bind] at h
        rcases hr : runTrace s1 es with _ | ⟨s3, outs3⟩
        · rw [hr] at h
          exact Option.noConfusion h
        · rw [hr] at h
          simp only [Option.map] at h
          injection h with h2
          injection h2 with ha hb
          subst ha
          have hInv1 := drain_inv 8 s [e] s1 outs1 hInv ?_ hp
          · exact ih s1 s3 outs3 hInv1 hall.2 hr
          · intro e2 hm hc
            rw [List.mem_singleton] at hm
            subst hm
            exact absurd hc (isExternal_not_cal e2 hall.1)

/-- RunMorseElementsSM calls a classification function only in the three
post-calibration state and edge combinations. -/
lemma invokes_imp_postCal (s : DecoderState) (e : ES_Event_t)
    (h : invokesClassification s e = true) :
    inPostCal s.CurrentState = true := by
  obtain ⟨cs, tr, tf, fd, dot⟩ := s
  obtain ⟨et, pp⟩ := e
  cases cs <;> cases et <;> simp_all [invokesClassification, inPostCal]

/-- Claim C7: in every reachable module state that sits in a
post-calibration state (reached only after a completed calibration),
LengthOfDot is strictly positive; moreover any single call of
RunMorseElementsSM from such a state leaves LengthOfDot unchanged (only a
reset back through the calibration states can change it), and whenever the
call invokes CharacterizePulse or CharacterizeSpace the divisor
LengthOfDot is already positive. -/
theorem morse_C7 (s : DecoderState) (hs : ReachableState s) :
    (inPostCal s.CurrentState = true → 0 < s.LengthOfDot) ∧
    (∀ (e : ES_Event_t) (r : StepResult), RunMorseElementsSM s e = some r →
      (invokesClassification s e = true → 0 < s.LengthOfDot) ∧
      (inPostCal s.CurrentState = true →
        r.state.LengthOfDot = s.LengthOfDot)) := by
  obtain ⟨evs, outs, hall, hrun⟩ := hs
  have hInv := runTrace_inv evs initialDecoderState s outs (by decide) hall hrun
  refine ⟨hInv, fun e r hr => ⟨fun hc => hInv (invokes_imp_postCal s e hc),
    fun hp => (step_facts s e r hr).2.2.2 (Or.inl hp)⟩⟩

/-- Witness for morse_C7: the reachable decode state produced by a
calibration with widths 100 and 300 followed by a 300-tick gap has a
positive LengthOfDot. -/
theorem morse_C7_witness :
    0 < DecoderState.LengthOfDot
        ⟨MorseElementsState_t.DecodeWaitFall, 800, 500, 100, 100⟩ := by
  have h := morse_C7 ⟨MorseElementsState_t.DecodeWaitFall, 800, 500, 100, 100⟩
      ⟨[⟨ESEventType.ES_INIT, 0⟩, ⟨ESEventType.ES_RISING_EDGE, 0⟩,
        ⟨ESEventType.ES_FALLING_EDGE, 100⟩, ⟨ESEventType.ES_RISING_EDGE, 200⟩,
        ⟨ESEventType.ES_FALLING_EDGE, 500⟩, ⟨ESEventType.ES_RISING_EDGE, 800⟩],
       [MorseOutput.endOfCharacter], rfl, rfl⟩
  exact h.1 rfl

end MorseDecode
